import Mathlib

/-!
Verification development for the IPC debugger simulation engine
(`src/App.jsx`).  The React component keeps its engine state in a set of
`useState` variables; each tick of the driver runs one interval callback
that calls `runProcessA`, `runProcessB` and `detectIssues` in order.

Embedding notes, faithful to React's state semantics:

* Within one callback, every read of a state variable sees the *snapshot*
  taken when the callback's closures were created (the committed state of
  the previous tick), while `setX(v)` replaces and `setX(prev => f prev)`
  transforms the *pending* state that is committed at the end of the
  callback.  Each engine function is therefore embedded as a function of
  two states, `snap` (all reads) and `pend` (all writes), returning the
  new pending state.  The effect hook re-subscribes the interval after
  every commit (its dependencies change every tick), so at the callback
  for tick `t` the snapshot is exactly the state committed after tick
  `t - 1`, and `cycleRef.current` (a ref, updated in place) equals `t`.

* Log entries are modelled by their severity only; the human-readable
  message strings and wall-clock timestamps are display data.  `addLog`
  keeps the 50 most recent entries, newest first, as in the source.

* `Math.random()` inside `generateChunk` is modelled by passing the
  generated chunk (or an oracle of chunks, one per tick) as an argument.

* `perfMetrics` / `calculatePerformanceMetrics` (floating-point derived
  display metrics computed from `Date.now()`) and `metrics.startTime`
  are wall-clock display state touched by no claim and are omitted;
  `metrics.cycle` mirrors both `metrics.cycle` and `cycleRef.current`,
  which stay equal (both are incremented once per tick and both are
  zeroed by `resetSimulation`).

* The scheduler's dispatch test `cycleRef.current % (speed / 100) === 0`
  runs on JavaScript numbers: `speed / 100` is rounded to the nearest
  IEEE-754 binary64 double (ties to even) and the remainder on the result
  is then exact.  `flDiv100` computes that double as a dyadic rational and
  `schedActsJS` is the faithful test.  The tick embedding uses the
  divisibility form `schedActs` (`speed` divides `100 * t`), which equals
  `schedActsJS` whenever the period is a multiple of 25 (and at most
  `2 ^ 53`), so `speed / 100` is exactly representable — true of every
  period a scenario in this file uses (100, 250, 1000).
-/

namespace IPCDebugger

/-- Actor identifier: the strings `'A'` / `'B'` of the source. -/
inductive Proc
  | A
  | B
deriving DecidableEq, Repr

/-- Process phase strings of the source. -/
inductive Phase
  | IDLE
  | RUNNING
  | BLOCKED
  | WAITING
  | DEADLOCKED
deriving DecidableEq, Repr

/-- The `IPC_TYPES` configuration constants. -/
inductive IpcType
  | PIPE
  | QUEUE
  | SHARED_MEMORY
  | RESOURCES_DEADLOCK
deriving DecidableEq, Repr

/-- Log severity (`type` field of a log record); messages and timestamps
are display-only and omitted. -/
inductive LogType
  | INFO
  | WARNING
  | ERROR
  | DEADLOCK
deriving DecidableEq, Repr

/-- A buffer element `{value, priority}` produced by `generateChunk`. -/
structure Item where
  value : Nat
  priority : Nat
deriving DecidableEq, Repr

/-- The `sharedMemory` state `{value, accessed}`. -/
structure SharedMem where
  value : Nat
  accessed : Nat
deriving DecidableEq, Repr

/-- One resource of the deadlock scenario: `{heldBy, requestedBy}`. -/
structure Resource where
  heldBy : Option Proc
  requestedBy : Option Proc
deriving DecidableEq, Repr

/-- The `resources` state `{R1, R2, deadlock}`. -/
structure ResourceState where
  R1 : Resource
  R2 : Resource
  deadlock : Bool
deriving DecidableEq, Repr

/-- The `metrics` state; `startTime` (wall clock) is omitted. -/
structure Metrics where
  produced : Nat
  consumed : Nat
  aWaitTime : Nat
  bWaitTime : Nat
  cycle : Nat
deriving DecidableEq, Repr

/-- The engine's full state: the `useState` variables of the component. -/
structure SimState where
  isRunning : Bool
  ipcType : IpcType
  producerSpeed : Nat
  consumerSpeed : Nat
  buffer : List Item
  sharedMemory : SharedMem
  lockHeldBy : Option Proc
  resources : ResourceState
  processAState : Phase
  processBState : Phase
  logs : List LogType
  metrics : Metrics
deriving DecidableEq, Repr

/-- `const MAX_BUFFER_SIZE = 10`. -/
def MAX_BUFFER_SIZE : Nat := 10

/-- `const INITIAL_SHARED_MEMORY = { value: 0, accessed: 0 }`. -/
def INITIAL_SHARED_MEMORY : SharedMem := ⟨0, 0⟩

/-- `const INITIAL_PROCESS_STATE = 'IDLE'`. -/
def INITIAL_PROCESS_STATE : Phase := .IDLE

/-- `const INITIAL_LOCK_STATE = null`. -/
def INITIAL_LOCK_STATE : Option Proc := none

/-- `const INITIAL_RESOURCE_STATE`: both resources free, no deadlock. -/
def INITIAL_RESOURCE_STATE : ResourceState :=
  ⟨⟨none, none⟩, ⟨none, none⟩, false⟩

/-- The zeroed `metrics` object installed on mount and on reset. -/
def initialMetrics : Metrics := ⟨0, 0, 0, 0, 0⟩

/-- `addLog`: `setLogs(prev => [entry, ...prev].slice(0, 50))`. -/
def addLog (t : LogType) (logs : List LogType) : List LogType :=
  (t :: logs).take 50

/-- The initial values of the `useState` variables
(`useState(IPC_TYPES.PIPE)`, `useState(500)`, `useState(800)`, ...). -/
def initialState : SimState :=
  { isRunning := false
    ipcType := .PIPE
    producerSpeed := 500
    consumerSpeed := 800
    buffer := []
    sharedMemory := INITIAL_SHARED_MEMORY
    lockHeldBy := INITIAL_LOCK_STATE
    resources := INITIAL_RESOURCE_STATE
    processAState := INITIAL_PROCESS_STATE
    processBState := INITIAL_PROCESS_STATE
    logs := []
    metrics := initialMetrics }

/-- `resetSimulation`: stops the driver (`clearInterval` + `setIsRunning(false)`)
and re-installs every initial value.  `ipcType`, `producerSpeed` and
`consumerSpeed` are configuration inputs that `resetSimulation` does not touch. -/
def resetSimulation (s : SimState) : SimState :=
  { s with
    isRunning := false
    buffer := []
    sharedMemory := INITIAL_SHARED_MEMORY
    lockHeldBy := INITIAL_LOCK_STATE
    resources := INITIAL_RESOURCE_STATE
    processAState := INITIAL_PROCESS_STATE
    processBState := INITIAL_PROCESS_STATE
    logs := []
    metrics := initialMetrics }

/-- `runDeadlockProcessA` (Revision 2).  All branch conditions read the
snapshot `snap`; all updates transform the pending state. -/
def runDeadlockProcessA (snap pend : SimState) : SimState :=
  if snap.resources.deadlock then { pend with processAState := .DEADLOCKED }
  else
    let p1 :=
      if snap.resources.R1.heldBy = none then
        { pend with
          resources := { pend.resources with R1 := ⟨some .A, none⟩ }
          processAState := .RUNNING
          logs := addLog .INFO pend.logs }
      else if snap.resources.R1.heldBy = some .B then
        { pend with
          resources :=
            { pend.resources with
              R1 := { pend.resources.R1 with requestedBy := some .A } }
          processAState := .BLOCKED
          metrics := { pend.metrics with aWaitTime := pend.metrics.aWaitTime + 1 }
          logs := addLog .WARNING pend.logs }
      else pend
    if snap.resources.R1.heldBy = some .A ∧ snap.resources.R2.heldBy = none then
      let p2 :=
        { p1 with
          resources := { p1.resources with R2 := ⟨some .A, none⟩ }
          processAState := .RUNNING
          logs := addLog .INFO p1.logs }
      { p2 with resources := INITIAL_RESOURCE_STATE }
    else if snap.resources.R1.heldBy = some .A ∧ snap.resources.R2.heldBy = some .B then
      let p2 :=
        { p1 with
          resources :=
            { p1.resources with
              R2 := { p1.resources.R2 with requestedBy := some .A } }
          processAState := .BLOCKED
          metrics := { p1.metrics with aWaitTime := p1.metrics.aWaitTime + 1 } }
      if snap.resources.R1.requestedBy = some .B then
        { p2 with resources := { p2.resources with deadlock := true } }
      else p2
    else p1

/-- `runDeadlockProcessB`: symmetric to A over R2 then R1. -/
def runDeadlockProcessB (snap pend : SimState) : SimState :=
  if snap.resources.deadlock then { pend with processBState := .DEADLOCKED }
  else
    let p1 :=
      if snap.resources.R2.heldBy = none then
        { pend with
          resources := { pend.resources with R2 := ⟨some .B, none⟩ }
          processBState := .RUNNING
          logs := addLog .INFO pend.logs }
      else if snap.resources.R2.heldBy = some .A then
        { pend with
          resources :=
            { pend.resources with
              R2 := { pend.resources.R2 with requestedBy := some .B } }
          processBState := .BLOCKED
          metrics := { pend.metrics with bWaitTime := pend.metrics.bWaitTime + 1 }
          logs := addLog .WARNING pend.logs }
      else pend
    if snap.resources.R2.heldBy = some .B ∧ snap.resources.R1.heldBy = none then
      let p2 :=
        { p1 with
          resources := { p1.resources with R1 := ⟨some .B, none⟩ }
          processBState := .RUNNING
          logs := addLog .INFO p1.logs }
      { p2 with resources := INITIAL_RESOURCE_STATE }
    else if snap.resources.R2.heldBy = some .B ∧ snap.resources.R1.heldBy = some .A then
      let p2 :=
        { p1 with
          resources :=
            { p1.resources with
              R1 := { p1.resources.R1 with requestedBy := some .B } }
          processBState := .BLOCKED
          metrics := { p1.metrics with bWaitTime := p1.metrics.bWaitTime + 1 } }
      if snap.resources.R2.requestedBy = some .A then
        { p2 with resources := { p2.resources with deadlock := true } }
      else p2
    else p1

/-- `runProcessA` (Producer/Writer).  In the shared-memory success branch the
source acquires the lock, writes, and releases within the one call
(`setLockHeldBy('A')` ... `setLockHeldBy(null)`); the sequential `let`s
mirror each setter line. -/
def runProcessA (chunk : Item) (snap pend : SimState) : SimState :=
  if snap.ipcType = .RESOURCES_DEADLOCK then
    runDeadlockProcessA snap pend
  else if snap.ipcType = .PIPE ∨ snap.ipcType = .QUEUE then
    if snap.buffer.length < MAX_BUFFER_SIZE then
      { pend with
        buffer := pend.buffer ++ [chunk]
        metrics := { pend.metrics with produced := pend.metrics.produced + 1 }
        processAState := .RUNNING
        logs := addLog .INFO pend.logs }
    else
      { pend with
        processAState := .BLOCKED
        metrics := { pend.metrics with aWaitTime := pend.metrics.aWaitTime + 1 }
        logs := addLog .WARNING pend.logs }
  else if snap.ipcType = .SHARED_MEMORY then
    if snap.lockHeldBy = some .B then
      { pend with
        processAState := .WAITING
        metrics := { pend.metrics with aWaitTime := pend.metrics.aWaitTime + 1 } }
    else if snap.lockHeldBy = none then
      let p1 := { pend with lockHeldBy := some .A }
      let p2 := { p1 with processAState := .RUNNING }
      let p3 :=
        { p2 with
          sharedMemory :=
            ⟨snap.sharedMemory.value + 1, snap.sharedMemory.accessed + 1⟩ }
      let p4 :=
        { p3 with metrics := { p3.metrics with produced := p3.metrics.produced + 1 } }
      let p5 := { p4 with logs := addLog .INFO p4.logs }
      let p6 := { p5 with lockHeldBy := none }
      { p6 with logs := addLog .INFO p6.logs }
    else pend
  else pend

/-- The priority-selection scan of `runProcessB` for the QUEUE discipline:
`buffer.reduce((bestIndex, current, currentIndex) => current.priority <
buffer[bestIndex].priority ? currentIndex : bestIndex, 0)`.  Since
`current = buffer[currentIndex]`, the reduction is expressed over the index
list `List.range l.length`, with `l.getD currentIndex _` in place of
`current`. -/
def bestPrioIdx (l : List Item) : Nat :=
  (List.range l.length).foldl
    (fun bestIndex currentIndex =>
      if (l.getD currentIndex ⟨0, 0⟩).priority < (l.getD bestIndex ⟨0, 0⟩).priority
      then currentIndex else bestIndex)
    0

/-- `buffer.filter((_, index) => index !== i)`: drop the element at index `i`. -/
def removeAtIndex (l : List Item) (i : Nat) : List Item :=
  (l.enum.filter (fun p => p.1 != i)).map Prod.snd

/-- `runProcessB` (Consumer/Reader).  Note the source checks
`buffer.length === 0` before dispatching on the mechanism, so the check
also guards the shared-memory branch. -/
def runProcessB (snap pend : SimState) : SimState :=
  if snap.ipcType = .RESOURCES_DEADLOCK then
    runDeadlockProcessB snap pend
  else if snap.buffer.length = 0 then
    { pend with
      processBState := .BLOCKED
      metrics := { pend.metrics with bWaitTime := pend.metrics.bWaitTime + 1 }
      logs := addLog .WARNING pend.logs }
  else if snap.ipcType = .PIPE then
    { pend with
      buffer := pend.buffer.drop 1
      metrics := { pend.metrics with consumed := pend.metrics.consumed + 1 }
      processBState := .RUNNING
      logs := addLog .INFO pend.logs }
  else if snap.ipcType = .QUEUE then
    let highestPriorityIndex := bestPrioIdx snap.buffer
    { pend with
      buffer := removeAtIndex pend.buffer highestPriorityIndex
      metrics := { pend.metrics with consumed := pend.metrics.consumed + 1 }
      processBState := .RUNNING
      logs := addLog .INFO pend.logs }
  else if snap.ipcType = .SHARED_MEMORY then
    if snap.lockHeldBy = some .A then
      { pend with
        processBState := .WAITING
        metrics := { pend.metrics with bWaitTime := pend.metrics.bWaitTime + 1 } }
    else if snap.lockHeldBy = none then
      let p1 := { pend with lockHeldBy := some .B }
      let p2 := { p1 with processBState := .RUNNING }
      let p3 := { p2 with logs := addLog .INFO p2.logs }
      let p4 := { p3 with lockHeldBy := none }
      let p5 :=
        { p4 with metrics := { p4.metrics with consumed := p4.metrics.consumed + 1 } }
      { p5 with logs := addLog .INFO p5.logs }
    else pend
  else pend

/-- `detectIssues` (Analysis and Reporting Module). -/
def detectIssues (snap pend : SimState) : SimState :=
  if snap.ipcType = .RESOURCES_DEADLOCK then
    if snap.resources.deadlock then
      { pend with
        logs := addLog .DEADLOCK pend.logs
        processAState := .DEADLOCKED
        processBState := .DEADLOCKED
        isRunning := false }
    else pend
  else
    let p1 :=
      if snap.buffer.length = MAX_BUFFER_SIZE ∧ snap.processAState = .BLOCKED then
        { pend with logs := addLog .WARNING pend.logs }
      else pend
    let p2 :=
      if snap.buffer.length = 0 ∧ snap.processBState = .BLOCKED then
        { p1 with logs := addLog .WARNING p1.logs }
      else p1
    let p3 :=
      if snap.ipcType = .SHARED_MEMORY ∧ snap.processAState = .WAITING
          ∧ snap.processBState = .WAITING ∧ snap.lockHeldBy ≠ none then
        { p2 with logs := addLog .WARNING p2.logs }
      else p2
    if snap.ipcType = .SHARED_MEMORY ∧ snap.metrics.cycle % 100 = 0
        ∧ 0 < snap.metrics.cycle then
      { p3 with
        sharedMemory := ⟨p3.sharedMemory.value * 2, p3.sharedMemory.accessed + 1⟩
        logs := addLog .ERROR p3.logs }
    else p3

/-- JavaScript's `%` on non-negative reals: `a - b * trunc(a / b)`, and for
`0 ≤ a`, `0 < b` truncation toward zero is the floor. -/
def jsMod (a b : ℚ) : ℚ := a - b * (⌊a / b⌋ : ℚ)

/-- The scheduler's dispatch test `cycleRef.current % (speed / 100) === 0`
idealised over exact rationals.  The source computes `speed / 100` in
binary64 (see `flDiv100` / `schedActsJS` below); the idealisation agrees
with the binary64 test exactly when `speed / 100` is representable, in
particular at every period that is a multiple of 25 and at most `2 ^ 53`
(`schedActsJS_eq_schedActs`), which covers every period used in this
file's scenarios. -/
def schedActsQ (speedMs t : Nat) : Bool :=
  decide (jsMod (t : ℚ) ((speedMs : ℚ) / 100) = 0)

/-- The exact-rational dispatch test in divisibility form: for a positive
period, `t % (speed / 100) === 0` over the rationals holds iff `speed`
divides `100 * t` (`schedActs_agrees` proves the agreement with
`schedActsQ`).  This form is used in the tick embedding so that concrete
runs reduce; it matches the binary64 computation of the source at every
scenario period (multiples of 25, `schedActsJS_eq_schedActs`). -/
def schedActs (speedMs t : Nat) : Bool :=
  (100 * t) % speedMs == 0

/-- Floor of the base-2 logarithm, by structural recursion on a fuel that
bounds the recursion depth (`n` itself suffices: the depth is at most
`log2 n + 1 ≤ n` for `n ≥ 1`), so that the kernel can evaluate it. -/
def nlog2Aux : Nat → Nat → Nat
  | 0, _ => 0
  | fuel + 1, n => if 2 ≤ n then nlog2Aux fuel (n / 2) + 1 else 0

/-- `⌊log2 n⌋` for `n ≥ 1` (and `0` at `0`). -/
def nlog2 (n : Nat) : Nat := nlog2Aux n n

/-- Round half to even: the integer nearest `a / b` (for `0 < b`), ties
going to the even quotient — the rounding of IEEE-754 arithmetic. -/
def rhe (a b : Nat) : Nat :=
  if 2 * (a % b) < b then a / b
  else if b < 2 * (a % b) then a / b + 1
  else if a / b % 2 = 0 then a / b else a / b + 1

/-- `speedMs / 100` as JavaScript computes it: the IEEE-754 binary64
double nearest the quotient (round to nearest, ties to even), returned as
a dyadic pair `(m, k)` of value `m / 2 ^ k`.  For `100 ≤ speedMs` the
quotient is at least 1, so the double is normal and the significand `m`
is placed with `2 ^ 52 ≤ m < 2 ^ 53` before any tie bump (a bump to
`2 ^ 53` keeps the value correct, merely unnormalised). -/
def flDiv100 (speedMs : Nat) : Nat × Nat :=
  if nlog2 (speedMs / 100) ≤ 52 then
    (rhe (speedMs * 2 ^ (52 - nlog2 (speedMs / 100))) 100,
      52 - nlog2 (speedMs / 100))
  else
    (rhe speedMs (100 * 2 ^ (nlog2 (speedMs / 100) - 52))
      * 2 ^ (nlog2 (speedMs / 100) - 52), 0)

/-- The value of the double `speedMs / 100`, as a rational. -/
def flVal (speedMs : Nat) : ℚ :=
  ((flDiv100 speedMs).1 : ℚ) / ((2 ^ (flDiv100 speedMs).2 : ℕ) : ℚ)

/-- The scheduler's dispatch test as JavaScript evaluates it:
`t % (speedMs / 100) === 0` with `speedMs / 100` rounded to the nearest
binary64 double `m / 2 ^ k` and `%` exact on the result, so the test
holds iff that double divides `t`, i.e. iff `m` divides `t * 2 ^ k`
(`schedActsJS_iff` proves this reading). -/
def schedActsJS (speedMs t : Nat) : Bool :=
  (t * 2 ^ (flDiv100 speedMs).2) % (flDiv100 speedMs).1 == 0

/-- JavaScript's `Math.round` (round half toward positive infinity). -/
def jsRound (q : ℚ) : ℤ := ⌊q + 1 / 2⌋

/-- Modelled from the spec: the spec's dispatch rule
"an actor performs its operation on a tick t iff
t mod round(periodMs / 100) == 0", with `round` as `Math.round`.
Stated for comparison with `schedActs`, the rule of the source. -/
def specActsRound (periodMs t : Nat) : Bool :=
  decide ((t : ℤ) % jsRound ((periodMs : ℚ) / 100) = 0)

/-- Producer half of the interval callback:
`if (cycleRef.current % (producerSpeed / 100) === 0) runProcessA();
else if (processAState !== 'DEADLOCKED') setProcessAState('IDLE');`.
`t` is `cycleRef.current` after its increment. -/
def schedStepA (chunk : Item) (t : Nat) (snap pend : SimState) : SimState :=
  if schedActs snap.producerSpeed t then runProcessA chunk snap pend
  else if snap.processAState ≠ .DEADLOCKED then { pend with processAState := .IDLE }
  else pend

/-- Consumer half of the interval callback, symmetric to `schedStepA`. -/
def schedStepB (t : Nat) (snap pend : SimState) : SimState :=
  if schedActs snap.consumerSpeed t then runProcessB snap pend
  else if snap.processBState ≠ .DEADLOCKED then { pend with processBState := .IDLE }
  else pend

/-- One interval callback of the main simulation loop: increment the tick
counter, dispatch A then B, then run `detectIssues`.  `snap` for every read
is `s`, the state committed after the previous tick, and `t = cycleRef.current`
is `s.metrics.cycle + 1` (ref and state counter advance in lockstep). -/
def tick (chunk : Item) (s : SimState) : SimState :=
  let t := s.metrics.cycle + 1
  let p0 := { s with metrics := { s.metrics with cycle := s.metrics.cycle + 1 } }
  let p1 := schedStepA chunk t s p0
  let p2 := schedStepB t s p1
  detectIssues s p2

/-- Drive `n` consecutive ticks; `oracle t` is the chunk `generateChunk`
would return on tick `t` (the produced values are random in the source). -/
def runTicks (oracle : Nat → Item) : Nat → SimState → SimState
  | 0, s => s
  | n + 1, s =>
    let s' := runTicks oracle n s
    tick (oracle (s'.metrics.cycle + 1)) s'

/-- One buffer operation, for stating properties over arbitrary operation
sequences: a produce attempt with a given chunk, or a consume attempt. -/
inductive BufferOp
  | produce (chunk : Item)
  | consume
deriving DecidableEq, Repr

/-- Apply one operation against the committed state (operations on distinct
ticks see each other's committed effects, so snapshot = pending here). -/
def applyOp (s : SimState) : BufferOp → SimState
  | .produce c => runProcessA c s s
  | .consume => runProcessB s s

/-- Apply a sequence of buffer operations in order. -/
def applyOps (ops : List BufferOp) (s : SimState) : SimState :=
  ops.foldl applyOp s

/-- Produce the given items in order (one committed `runProcessA` each). -/
def produceAll (items : List Item) (s : SimState) : SimState :=
  items.foldl (fun st c => runProcessA c st st) s

/-- Run `n` committed consume attempts, returning the list of chunks read
(`const chunk = buffer[0]` — empty attempts read nothing) and the final
state. -/
def consumeSteps : Nat → SimState → List Item × SimState
  | 0, s => ([], s)
  | n + 1, s =>
    let rest := consumeSteps n (runProcessB s s)
    (s.buffer.take 1 ++ rest.1, rest.2)

/-- The shared-memory configuration reached by selecting the Shared Memory
mechanism (the selector change triggers `resetSimulation`). -/
def sharedMemInitial : SimState := { initialState with ipcType := .SHARED_MEMORY }

/-- The deadlock-scenario configuration of claim C2: ResourcePair mechanism,
both actors driven every tick, driver running. -/
def dlInit : SimState :=
  { initialState with
    ipcType := .RESOURCES_DEADLOCK
    producerSpeed := 100
    consumerSpeed := 100
    isRunning := true }

/-- `n` ticks of the deadlock scenario (chunks are irrelevant there). -/
def dlRun (n : Nat) : SimState := runTicks (fun _ => ⟨1, 1⟩) n dlInit

/-- The C6 scenario: Pipe, producer 100 ms (acts every tick), consumer
1000 ms (acts every 10th tick), driver running, buffer empty. -/
def pipeScenarioInit : SimState :=
  { initialState with producerSpeed := 100, consumerSpeed := 1000, isRunning := true }

/-- A state one tick before tick 5 with both periods 250 ms, for the C5
counterexample. -/
def c5State : SimState :=
  { initialState with
    producerSpeed := 250
    consumerSpeed := 250
    isRunning := true
    metrics := { initialMetrics with cycle := 4 } }

/-- The C3 scenario buffer: priorities `[3,1,2,1]`, values marking
insertion order. -/
def prioScenario : List Item := [⟨10, 3⟩, ⟨20, 1⟩, ⟨30, 2⟩, ⟨40, 1⟩]

/-- A QUEUE-mode state holding `prioScenario`. -/
def queueScenarioState : SimState :=
  { initialState with ipcType := .QUEUE, buffer := prioScenario }

/-- A Pipe state whose buffer is at capacity. -/
def fullPipeState : SimState :=
  { initialState with buffer := List.replicate 10 ⟨1, 1⟩ }

/-- A shared-memory snapshot on a race-injection cycle. -/
def c9SnapState : SimState :=
  { sharedMemInitial with metrics := { initialMetrics with cycle := 100 } }

/-- A configuration with both periods at the 100 ms minimum. -/
def c5ProbeState : SimState :=
  { initialState with producerSpeed := 100, consumerSpeed := 100 }

/-- The observable facts of the C6 scenario tracked across ticks: the
mechanism, the two periods, the tick counter, the buffer length and the
two phases. -/
def c6Inv (n len : Nat) (a b : Phase) (s : SimState) : Prop :=
  s.ipcType = .PIPE ∧ s.producerSpeed = 100 ∧ s.consumerSpeed = 1000
  ∧ s.metrics.cycle = n ∧ s.buffer.length = len
  ∧ s.processAState = a ∧ s.processBState = b

/-! ## Helper lemmas -/

/-- Indices of `enumFrom m t` are all at least `m`, so filtering out index
`i < m` keeps everything. -/
theorem keepAll_enumFrom (i : Nat) :
    ∀ (t : List Item) (m : Nat), i < m →
      ((List.enumFrom m t).filter (fun p => p.1 != i)).map Prod.snd = t := by
  intro t
  induction t with
  | nil => intro m _; rfl
  | cons a t ih =>
    intro m him
    have hne : (m != i) = true := by simp; omega
    simp [List.enumFrom, List.filter_cons, hne, ih (m + 1) (by omega)]

/-- Filtering index `i` out of `enumFrom n t` (for `n ≤ i`) removes exactly
the element at offset `i - n`. -/
theorem removeFrom_aux :
    ∀ (t : List Item) (n i : Nat), n ≤ i →
      ((List.enumFrom n t).filter (fun p => p.1 != i)).map Prod.snd
        = t.take (i - n) ++ t.drop (i - n + 1) := by
  intro t
  induction t with
  | nil => intro n i _; simp
  | cons a t ih =>
    intro n i hni
    by_cases h : n = i
    · subst h
      have hself : (n != n) = false := by simp
      simp [List.enumFrom, List.filter_cons, hself,
        keepAll_enumFrom n t (n + 1) (by omega), Nat.sub_self]
    · have hlt : n < i := lt_of_le_of_ne hni h
      have hne : (n != i) = true := by simp; omega
      have hsub : i - n = (i - (n + 1)) + 1 := by omega
      simp [List.enumFrom, List.filter_cons, hne, ih (n + 1) i hlt, hsub]

/-- `removeAtIndex` removes exactly the element at index `i`. -/
theorem removeAtIndex_eq (l : List Item) (i : Nat) :
    removeAtIndex l i = l.take i ++ l.drop (i + 1) := by
  have h := removeFrom_aux l 0 i (Nat.zero_le i)
  simpa [removeAtIndex, List.enum] using h

/-- `removeAtIndex` never lengthens the list. -/
theorem removeAtIndex_length_le (l : List Item) (i : Nat) :
    (removeAtIndex l i).length ≤ l.length := by
  rw [removeAtIndex_eq]
  simp only [List.length_append, List.length_take, List.length_drop]
  omega

/-- The selection fold of `bestPrioIdx`, restricted to the first `n`
indices, returns an index of minimal priority, and the first such index:
every earlier index has strictly larger priority. -/
theorem bestFold_spec (l : List Item) :
    ∀ n, 1 ≤ n → n ≤ l.length →
      (List.range n).foldl
          (fun bestIndex currentIndex =>
            if (l.getD currentIndex ⟨0, 0⟩).priority
                < (l.getD bestIndex ⟨0, 0⟩).priority
            then currentIndex else bestIndex) 0 < n
      ∧ (∀ j, j < n →
          (l.getD ((List.range n).foldl
            (fun bestIndex currentIndex =>
              if (l.getD currentIndex ⟨0, 0⟩).priority
                  < (l.getD bestIndex ⟨0, 0⟩).priority
              then currentIndex else bestIndex) 0) ⟨0, 0⟩).priority
            ≤ (l.getD j ⟨0, 0⟩).priority)
      ∧ (∀ j, j < (List.range n).foldl
            (fun bestIndex currentIndex =>
              if (l.getD currentIndex ⟨0, 0⟩).priority
                  < (l.getD bestIndex ⟨0, 0⟩).priority
              then currentIndex else bestIndex) 0 →
          (l.getD ((List.range n).foldl
            (fun bestIndex currentIndex =>
              if (l.getD currentIndex ⟨0, 0⟩).priority
                  < (l.getD bestIndex ⟨0, 0⟩).priority
              then currentIndex else bestIndex) 0) ⟨0, 0⟩).priority
            < (l.getD j ⟨0, 0⟩).priority) := by
  intro n
  induction n with
  | zero => intro h; omega
  | succ n ih =>
    intro _ hlen
    by_cases hn0 : n = 0
    · subst hn0
      constructor
      · simp [List.range_succ]
      constructor
      · intro j hj
        interval_cases j
        simp [List.range_succ]
      · intro j hj
        simp [List.range_succ] at hj
    · obtain ⟨hb, hmin, hfirst⟩ := ih (by omega) (by omega)
      rw [List.range_succ, List.foldl_append, List.foldl_cons, List.foldl_nil] at *
      set b := (List.range n).foldl
        (fun bestIndex currentIndex =>
          if (l.getD currentIndex ⟨0, 0⟩).priority
              < (l.getD bestIndex ⟨0, 0⟩).priority
          then currentIndex else bestIndex) 0 with hbdef
      by_cases hc : (l.getD n ⟨0, 0⟩).priority < (l.getD b ⟨0, 0⟩).priority
      · rw [if_pos hc]
        refine ⟨by omega, ?_, ?_⟩
        · intro j hj
          rcases Nat.lt_succ_iff_lt_or_eq.mp hj with hj' | hj'
          · exact le_of_lt (lt_of_lt_of_le hc (hmin j hj'))
          · subst hj'; exact le_refl _
        · intro j hj
          exact lt_of_lt_of_le hc (hmin j hj)
      · rw [if_neg hc]
        refine ⟨by omega, ?_, hfirst⟩
        intro j hj
        rcases Nat.lt_succ_iff_lt_or_eq.mp hj with hj' | hj'
        · exact hmin j hj'
        · subst hj'; exact le_of_not_lt hc

/-- `bestPrioIdx` of a non-empty list is in range, attains the minimal
priority, and is the first index doing so. -/
theorem bestPrioIdx_spec (l : List Item) (hl : l ≠ []) :
    bestPrioIdx l < l.length
    ∧ (∀ j, j < l.length →
        (l.getD (bestPrioIdx l) ⟨0, 0⟩).priority ≤ (l.getD j ⟨0, 0⟩).priority)
    ∧ (∀ j, j < bestPrioIdx l →
        (l.getD (bestPrioIdx l) ⟨0, 0⟩).priority < (l.getD j ⟨0, 0⟩).priority) := by
  have hlen : 1 ≤ l.length := by
    cases l with
    | nil => exact absurd rfl hl
    | cons a t => simp
  exact bestFold_spec l l.length hlen le_rfl

/-- `addLog` of a different severity does not increase the count of a
severity (truncation to 50 can only drop entries). -/
theorem count_addLog_le (t t' : LogType) (h : t ≠ t') (x : List LogType) :
    (addLog t x).count t' ≤ x.count t' := by
  unfold addLog
  calc ((t :: x).take 50).count t' ≤ (t :: x).count t' :=
        (List.take_sublist _ _).count_le _
    _ = x.count t' := by simp [List.count_cons, h]

/-- The dispatch test of the scheduler, characterised over the integers:
for a positive period, `t % (speed / 100) === 0` holds iff `speed`
divides `100 * t`. -/
theorem schedActsQ_iff (speedMs t : Nat) (hs : 0 < speedMs) :
    schedActsQ speedMs t = true ↔ (100 * t) % speedMs = 0 := by
  have hsQ : ((speedMs : ℚ) / 100) ≠ 0 := by positivity
  rw [schedActsQ, decide_eq_true_eq, jsMod, sub_eq_zero]
  constructor
  · intro h
    set k : ℤ := ⌊(t : ℚ) / ((speedMs : ℚ) / 100)⌋ with hk
    have h100 : ((100 * t : ℕ) : ℚ) = ((speedMs : ℕ) : ℚ) * (k : ℚ) := by
      push_cast
      rw [h]
      ring
    have hz : ((100 * t : ℕ) : ℤ) = (speedMs : ℤ) * k := by exact_mod_cast h100
    have hdvd : (speedMs : ℤ) ∣ ((100 * t : ℕ) : ℤ) := Dvd.intro _ hz.symm
    have hdvdN : speedMs ∣ 100 * t := by exact_mod_cast hdvd
    omega
  · intro h
    have hdvd : speedMs ∣ 100 * t := Nat.dvd_of_mod_eq_zero h
    obtain ⟨m, hm⟩ := hdvd
    have hmQ : ((100 : ℚ)) * t = (speedMs : ℚ) * m := by exact_mod_cast hm
    have hq : (t : ℚ) / ((speedMs : ℚ) / 100) = ((m : ℕ) : ℚ) := by
      rw [div_div_eq_mul_div]
      rw [div_eq_iff (by positivity : ((speedMs : ℚ)) ≠ 0)]
      linarith
    rw [hq, Int.floor_natCast]
    field_simp
    linarith

/-- The divisibility form of the dispatch test used in the tick embedding
agrees with the literal rational translation. -/
theorem schedActs_agrees (speedMs t : Nat) (hs : 0 < speedMs) :
    schedActs speedMs t = schedActsQ speedMs t := by
  have h1 := schedActsQ_iff speedMs t hs
  have h2 : schedActs speedMs t = true ↔ (100 * t) % speedMs = 0 := by
    unfold schedActs
    simp
  exact Bool.eq_iff_iff.mpr (h2.trans h1.symm)

/-- The fuel-truncated base-2 logarithm never exceeds an exponent whose
power bounds the argument. -/
theorem nlog2Aux_le (fuel n k : Nat) (h : n < 2 ^ k) : nlog2Aux fuel n ≤ k := by
  induction fuel generalizing n k with
  | zero => exact Nat.zero_le k
  | succ fuel ih =>
    unfold nlog2Aux
    split_ifs with h2
    · have hk : 1 ≤ k := by
        by_contra hk
        have : k = 0 := by omega
        subst this
        simp at h
        omega
      have hpow : 2 ^ k = 2 * 2 ^ (k - 1) := by
        rw [← pow_succ']
        congr 1
        omega
      have hlt : n / 2 < 2 ^ (k - 1) := by omega
      have := ih (n / 2) (k - 1) hlt
      omega
    · exact Nat.zero_le k

/-- `n < 2 ^ k` bounds `nlog2 n` by `k`. -/
theorem nlog2_le (n k : Nat) (h : n < 2 ^ k) : nlog2 n ≤ k :=
  nlog2Aux_le n n k h

/-- `2 ^ nlog2Aux fuel n` is a lower bound of a positive `n` for any
fuel. -/
theorem nlog2Aux_pow_le (fuel n : Nat) (h : 1 ≤ n) :
    2 ^ nlog2Aux fuel n ≤ n := by
  induction fuel generalizing n with
  | zero => simpa using h
  | succ fuel ih =>
    unfold nlog2Aux
    split_ifs with h2
    · have h1 : 1 ≤ n / 2 := by omega
      have := ih (n / 2) h1
      rw [pow_succ]
      omega
    · simpa using h

/-- `2 ^ nlog2 n ≤ n` for positive `n`. -/
theorem nlog2_pow_le (n : Nat) (h : 1 ≤ n) : 2 ^ nlog2 n ≤ n :=
  nlog2Aux_pow_le n n h

/-- Rounding never drops below the floor of the quotient. -/
theorem rhe_ge (a b : Nat) : a / b ≤ rhe a b := by
  unfold rhe
  split_ifs <;> omega

/-- When `b` divides `a` the half-even rounding of `a / b` is exact. -/
theorem rhe_exact (a b : Nat) (hb : 0 < b) (h : b ∣ a) : rhe a b = a / b := by
  have hr : a % b = 0 := Nat.mod_eq_zero_of_dvd h
  unfold rhe
  rw [hr]
  simp [hb]

/-- For a period `25 * u` with `u` small enough that `u / 4` fits in a
53-bit significand, the rounded double of `speedMs / 100` is the exact
quotient `u / 4`, as a dyadic pair. -/
theorem flDiv100_exact (u : Nat) (h4 : 4 ≤ u) (hub : u < 2 ^ 49) :
    flDiv100 (25 * u)
      = (u * 2 ^ (50 - nlog2 (u / 4)), 52 - nlog2 (u / 4)) := by
  have hq : 25 * u / 100 = u / 4 := by
    rw [show (100 : ℕ) = 25 * 4 from rfl]
    exact Nat.mul_div_mul_left _ _ (by norm_num)
  have hL : nlog2 (u / 4) ≤ 47 := nlog2_le _ _ (by omega)
  have hsplit : 52 - nlog2 (u / 4) = (50 - nlog2 (u / 4)) + 2 := by omega
  have hA : 25 * u * 2 ^ (52 - nlog2 (u / 4))
      = 100 * (u * 2 ^ (50 - nlog2 (u / 4))) := by
    rw [hsplit, pow_add]
    ring
  unfold flDiv100
  rw [hq, if_pos (by omega : nlog2 (u / 4) ≤ 52), hA,
    rhe_exact _ _ (by norm_num) ⟨_, rfl⟩,
    Nat.mul_div_cancel_left _ (by norm_num)]

/-- The significand of the rounded double of `speedMs / 100` is positive
for a period of at least 100 ms. -/
theorem flDiv100_pos (speedMs : Nat) (hs : 100 ≤ speedMs) :
    0 < (flDiv100 speedMs).1 := by
  have hq0 : 1 ≤ speedMs / 100 := by omega
  unfold flDiv100
  split_ifs with hL
  · have h1 : 100 ≤ speedMs * 2 ^ (52 - nlog2 (speedMs / 100)) := by
      have := Nat.le_mul_of_pos_right speedMs
        (show 0 < 2 ^ (52 - nlog2 (speedMs / 100)) by positivity)
      omega
    have h2 : 1 ≤ speedMs * 2 ^ (52 - nlog2 (speedMs / 100)) / 100 :=
      (Nat.one_le_div_iff (by norm_num)).mpr h1
    have h3 := rhe_ge (speedMs * 2 ^ (52 - nlog2 (speedMs / 100))) 100
    simp only []
    omega
  · have hself : 2 ^ nlog2 (speedMs / 100) ≤ speedMs / 100 :=
      nlog2_pow_le _ hq0
    have h3 : 100 * 2 ^ nlog2 (speedMs / 100) ≤ speedMs := by
      have := (Nat.le_div_iff_mul_le (show 0 < 100 by norm_num)).mp hself
      omega
    have h2p : 2 ^ (nlog2 (speedMs / 100) - 52) ≤ 2 ^ nlog2 (speedMs / 100) :=
      Nat.pow_le_pow_right (by norm_num) (by omega)
    have h1 : 100 * 2 ^ (nlog2 (speedMs / 100) - 52) ≤ speedMs := by omega
    have h2 : 1 ≤ speedMs / (100 * 2 ^ (nlog2 (speedMs / 100) - 52)) :=
      (Nat.one_le_div_iff (by positivity)).mpr h1
    have h3' := rhe_ge speedMs (100 * 2 ^ (nlog2 (speedMs / 100) - 52))
    have h4 : 0 < rhe speedMs (100 * 2 ^ (nlog2 (speedMs / 100) - 52)) := by
      omega
    simp only []
    exact Nat.mul_pos h4 (by positivity)

/-- `t % (a / b) === 0` over the rationals, characterised: for positive
`a`, `b` it holds iff `a` divides `b * t` (generalises `schedActsQ_iff`
from denominator 100 to the power of two of a dyadic value). -/
theorem jsMod_div_eq_zero_iff (a b t : Nat) (ha : 0 < a) (hb : 0 < b) :
    jsMod (t : ℚ) ((a : ℚ) / (b : ℚ)) = 0 ↔ (b * t) % a = 0 := by
  have haQ : ((a : ℚ)) ≠ 0 := by positivity
  rw [jsMod, sub_eq_zero]
  constructor
  · intro h
    set k : ℤ := ⌊(t : ℚ) / ((a : ℚ) / (b : ℚ))⌋ with hk
    have hbt : ((b * t : ℕ) : ℚ) = ((a : ℕ) : ℚ) * (k : ℚ) := by
      push_cast
      rw [h]
      field_simp
    have hz : ((b * t : ℕ) : ℤ) = (a : ℤ) * k := by exact_mod_cast hbt
    have hdvd : (a : ℤ) ∣ ((b * t : ℕ) : ℤ) := Dvd.intro _ hz.symm
    have hdvdN : a ∣ b * t := by exact_mod_cast hdvd
    omega
  · intro h
    have hdvd : a ∣ b * t := Nat.dvd_of_mod_eq_zero h
    obtain ⟨m, hm⟩ := hdvd
    have hmQ : ((b : ℚ)) * t = (a : ℚ) * m := by exact_mod_cast hm
    have hq : (t : ℚ) / ((a : ℚ) / (b : ℚ)) = ((m : ℕ) : ℚ) := by
      rw [div_div_eq_mul_div]
      rw [div_eq_iff haQ]
      linarith
    rw [hq, Int.floor_natCast]
    field_simp
    linarith

/-- The Boolean binary64 dispatch test is the literal reading of
`t % d === 0` over the rationals, `d` the rounded double. -/
theorem schedActsJS_iff (speedMs t : Nat) (hs : 100 ≤ speedMs) :
    schedActsJS speedMs t = true ↔ jsMod (t : ℚ) (flVal speedMs) = 0 := by
  have hm := flDiv100_pos speedMs hs
  have h := jsMod_div_eq_zero_iff (flDiv100 speedMs).1
    (2 ^ (flDiv100 speedMs).2) t hm (by positivity)
  rw [schedActsJS, beq_iff_eq, flVal,
    show t * 2 ^ (flDiv100 speedMs).2 = 2 ^ (flDiv100 speedMs).2 * t from
      Nat.mul_comm _ _]
  exact h.symm

/-- At a period that is a multiple of 25 and at most `2 ^ 53` the
quotient `periodMs / 100` is exactly representable, so the double is the
quotient itself. -/
theorem flVal_exact (speedMs : Nat) (h25 : 25 ∣ speedMs)
    (h1 : 100 ≤ speedMs) (h2 : speedMs ≤ 2 ^ 53) :
    flVal speedMs = (speedMs : ℚ) / 100 := by
  obtain ⟨u, rfl⟩ := h25
  have h4 : 4 ≤ u := by omega
  have hub : u < 2 ^ 49 := by omega
  have hL : nlog2 (u / 4) ≤ 47 := nlog2_le _ _ (by omega)
  have hsplit : 52 - nlog2 (u / 4) = (50 - nlog2 (u / 4)) + 2 := by omega
  rw [flVal, flDiv100_exact u h4 hub]
  push_cast
  rw [hsplit, pow_add]
  field_simp
  ring

/-- At a period that is a multiple of 25 (and at most `2 ^ 53`) the
binary64 dispatch test coincides with the exact-rational divisibility
form used in the tick embedding. -/
theorem schedActsJS_eq_schedActs (speedMs t : Nat) (h25 : 25 ∣ speedMs)
    (h1 : 100 ≤ speedMs) (h2 : speedMs ≤ 2 ^ 53) :
    schedActsJS speedMs t = schedActs speedMs t := by
  obtain ⟨u, rfl⟩ := h25
  have h4 : 4 ≤ u := by omega
  have hub : u < 2 ^ 49 := by omega
  have hL : nlog2 (u / 4) ≤ 47 := nlog2_le _ _ (by omega)
  have hsplit : 52 - nlog2 (u / 4) = (50 - nlog2 (u / 4)) + 2 := by omega
  have key : (u * 2 ^ (50 - nlog2 (u / 4)) ∣ t * 2 ^ (52 - nlog2 (u / 4)))
      ↔ 25 * u ∣ 100 * t := by
    rw [hsplit, pow_add,
      show t * (2 ^ (50 - nlog2 (u / 4)) * 2 ^ 2)
        = (4 * t) * 2 ^ (50 - nlog2 (u / 4)) by ring,
      Nat.mul_dvd_mul_iff_right
        (show 0 < 2 ^ (50 - nlog2 (u / 4)) by positivity),
      show (100 : ℕ) * t = 25 * (4 * t) by ring]
    exact (Nat.mul_dvd_mul_iff_left (show 0 < 25 by norm_num)).symm
  rw [schedActsJS, schedActs, flDiv100_exact u h4 hub]
  apply Bool.eq_iff_iff.mpr
  simp only [beq_iff_eq]
  constructor
  · intro h
    exact Nat.mod_eq_zero_of_dvd (key.mp (Nat.dvd_iff_mod_eq_zero.mpr h))
  · intro h
    exact Nat.mod_eq_zero_of_dvd (key.mpr (Nat.dvd_iff_mod_eq_zero.mpr h))

/-- A producer dispatch in deadlock mode with the flag set leaves the
mode, the resources and the driver flag of the pending state alone. -/
theorem schedStepA_rd_preserves (c : Item) (t : Nat) (snap pend : SimState)
    (hty : snap.ipcType = .RESOURCES_DEADLOCK)
    (hdl : snap.resources.deadlock = true) :
    (schedStepA c t snap pend).ipcType = pend.ipcType
    ∧ (schedStepA c t snap pend).resources = pend.resources := by
  unfold schedStepA runProcessA runDeadlockProcessA
  simp only [hty, hdl]
  split_ifs <;> simp

/-- Consumer analogue of `schedStepA_rd_preserves`. -/
theorem schedStepB_rd_preserves (t : Nat) (snap pend : SimState)
    (hty : snap.ipcType = .RESOURCES_DEADLOCK)
    (hdl : snap.resources.deadlock = true) :
    (schedStepB t snap pend).ipcType = pend.ipcType
    ∧ (schedStepB t snap pend).resources = pend.resources := by
  unfold schedStepB runProcessB runDeadlockProcessB
  simp only [hty, hdl]
  split_ifs <;> simp

/-- With `deadlocked` set, `detectIssues` logs the DEADLOCK event, forces
both phases, and halts the driver. -/
theorem detectIssues_deadlock (snap pend : SimState)
    (hty : snap.ipcType = .RESOURCES_DEADLOCK)
    (hdl : snap.resources.deadlock = true) :
    detectIssues snap pend =
      { pend with
        logs := addLog .DEADLOCK pend.logs
        processAState := .DEADLOCKED
        processBState := .DEADLOCKED
        isRunning := false } := by
  simp [detectIssues, hty, hdl]

/-- Once `deadlocked` is set, one full tick forces both phases to
DEADLOCKED and halts the driver, and the mode and flag persist. -/
theorem tick_deadlocked (c : Item) (s : SimState)
    (hty : s.ipcType = .RESOURCES_DEADLOCK) (hdl : s.resources.deadlock = true) :
    (tick c s).ipcType = .RESOURCES_DEADLOCK
    ∧ (tick c s).resources.deadlock = true
    ∧ (tick c s).processAState = .DEADLOCKED
    ∧ (tick c s).processBState = .DEADLOCKED
    ∧ (tick c s).isRunning = false := by
  have htick : tick c s =
      detectIssues s
        (schedStepB (s.metrics.cycle + 1) s
          (schedStepA c (s.metrics.cycle + 1) s
            { s with metrics := { s.metrics with cycle := s.metrics.cycle + 1 } })) :=
    rfl
  obtain ⟨hA1, hA2⟩ := schedStepA_rd_preserves c (s.metrics.cycle + 1) s
    { s with metrics := { s.metrics with cycle := s.metrics.cycle + 1 } } hty hdl
  obtain ⟨hB1, hB2⟩ := schedStepB_rd_preserves (s.metrics.cycle + 1) s
    (schedStepA c (s.metrics.cycle + 1) s
      { s with metrics := { s.metrics with cycle := s.metrics.cycle + 1 } }) hty hdl
  rw [htick, detectIssues_deadlock s _ hty hdl]
  refine ⟨?_, ?_, rfl, rfl, rfl⟩
  · show (schedStepB (s.metrics.cycle + 1) s
      (schedStepA c (s.metrics.cycle + 1) s
        { s with metrics := { s.metrics with cycle := s.metrics.cycle + 1 } })).ipcType
      = IpcType.RESOURCES_DEADLOCK
    rw [hB1, hA1]
    exact hty
  · show (schedStepB (s.metrics.cycle + 1) s
      (schedStepA c (s.metrics.cycle + 1) s
        { s with metrics := { s.metrics with cycle := s.metrics.cycle + 1 } })).resources.deadlock
      = true
    rw [hB2, hA2]
    exact hdl

/-- Producing into a Pipe or Queue with room appends the chunk at the tail
(committed semantics: snapshot = pending). -/
theorem runProcessA_append (c : Item) (s : SimState)
    (hty : s.ipcType = .PIPE ∨ s.ipcType = .QUEUE)
    (hlt : s.buffer.length < MAX_BUFFER_SIZE) :
    (runProcessA c s s).buffer = s.buffer ++ [c]
    ∧ (runProcessA c s s).ipcType = s.ipcType := by
  rcases hty with h | h <;> simp [runProcessA, h, hlt]

/-- `produceAll` appends the produced items in order as long as they fit. -/
theorem produceAll_pipe (l : List Item) :
    ∀ s : SimState, s.ipcType = .PIPE ∨ s.ipcType = .QUEUE →
      s.buffer.length + l.length ≤ 10 →
      (produceAll l s).buffer = s.buffer ++ l
      ∧ (produceAll l s).ipcType = s.ipcType := by
  induction l with
  | nil => intro s _ _; simp [produceAll]
  | cons c l ih =>
    intro s hty hlen
    have hlt : s.buffer.length < MAX_BUFFER_SIZE := by
      simp only [MAX_BUFFER_SIZE]
      simp at hlen
      omega
    obtain ⟨hbuf, hty'⟩ := runProcessA_append c s hty hlt
    have hstep : produceAll (c :: l) s = produceAll l (runProcessA c s s) := rfl
    have hrec := ih (runProcessA c s s)
      (by rw [hty']; exact hty)
      (by rw [hbuf]; simp at hlen ⊢; omega)
    constructor
    · rw [hstep, hrec.1, hbuf]
      simp
    · rw [hstep, hrec.2, hty']

/-- Consuming from a Pipe removes the head; `consumeSteps` therefore reads
the whole buffer front to back. -/
theorem consumeSteps_pipe :
    ∀ (l : List Item) (s : SimState), s.ipcType = .PIPE → s.buffer = l →
      (consumeSteps l.length s).1 = l ∧ (consumeSteps l.length s).2.buffer = [] := by
  intro l
  induction l with
  | nil => intro s _ hbuf; exact ⟨rfl, hbuf⟩
  | cons a t ih =>
    intro s hty hbuf
    have hcons : (runProcessB s s).buffer = t ∧ (runProcessB s s).ipcType = .PIPE := by
      simp [runProcessB, hty, hbuf]
    obtain ⟨hrest, hfin⟩ := ih (runProcessB s s) hcons.2 hcons.1
    constructor
    · show s.buffer.take 1 ++ (consumeSteps t.length (runProcessB s s)).1 = a :: t
      rw [hbuf, hrest]
      rfl
    · exact hfin

/-- One committed buffer operation in Pipe/Queue mode preserves the mode
and the capacity bound. -/
theorem applyOp_inv (s : SimState) (op : BufferOp)
    (hty : s.ipcType = .PIPE ∨ s.ipcType = .QUEUE)
    (hlen : s.buffer.length ≤ 10) :
    (applyOp s op).ipcType = s.ipcType ∧ (applyOp s op).buffer.length ≤ 10 := by
  cases op with
  | produce c =>
    show (runProcessA c s s).ipcType = s.ipcType ∧ (runProcessA c s s).buffer.length ≤ 10
    by_cases hlt : s.buffer.length < MAX_BUFFER_SIZE
    · obtain ⟨hbuf, hty'⟩ := runProcessA_append c s hty hlt
      refine ⟨hty', ?_⟩
      rw [hbuf]
      simp only [MAX_BUFFER_SIZE] at hlt
      simp
      omega
    · rcases hty with h | h <;>
      · simp only [runProcessA, h, MAX_BUFFER_SIZE]
        rw [if_neg (show ¬s.buffer.length < 10 by
          simpa [MAX_BUFFER_SIZE] using hlt)]
        exact ⟨rfl, hlen⟩
  | consume =>
    show (runProcessB s s).ipcType = s.ipcType ∧ (runProcessB s s).buffer.length ≤ 10
    by_cases h0 : s.buffer.length = 0
    · rcases hty with h | h <;> simp_all [runProcessB]
    · rcases hty with h | h
      · simp [runProcessB, h, h0]
        omega
      · simp [runProcessB, h, h0]
        exact le_trans (removeAtIndex_length_le _ _) hlen

/-- The capacity invariant holds after any committed operation sequence. -/
theorem applyOps_inv (ops : List BufferOp) :
    ∀ s : SimState, s.ipcType = .PIPE ∨ s.ipcType = .QUEUE →
      s.buffer.length ≤ 10 → (applyOps ops s).buffer.length ≤ 10 := by
  induction ops with
  | nil => intro s _ h; exact h
  | cons op ops ih =>
    intro s hty hlen
    obtain ⟨hty', hlen'⟩ := applyOp_inv s op hty hlen
    have hstep : applyOps (op :: ops) s = applyOps ops (applyOp s op) := rfl
    rw [hstep]
    exact ih _ (by rw [hty']; exact hty) hlen'

/-- `addLog` always puts the new entry at the head of the stream. -/
theorem addLog_head (t : LogType) (x : List LogType) :
    (addLog t x).head? = some t := rfl

/-- Unfolding equation for `runTicks`. -/
theorem runTicks_succ (oracle : Nat → Item) (n : Nat) (s : SimState) :
    runTicks oracle (n + 1) s =
      tick (oracle ((runTicks oracle n s).metrics.cycle + 1))
        (runTicks oracle n s) := by
  rw [runTicks]

/-- The producer dispatch when the producer acts. -/
theorem schedStepA_acts (c : Item) (t : Nat) (snap pend : SimState)
    (h : schedActs snap.producerSpeed t = true) :
    schedStepA c t snap pend = runProcessA c snap pend := by
  unfold schedStepA
  rw [if_pos h]

/-- The producer dispatch when the producer is idle this tick. -/
theorem schedStepA_idle (c : Item) (t : Nat) (snap pend : SimState)
    (h : schedActs snap.producerSpeed t = false)
    (hd : snap.processAState ≠ .DEADLOCKED) :
    schedStepA c t snap pend = { pend with processAState := .IDLE } := by
  unfold schedStepA
  rw [if_neg (by simp [h]), if_pos hd]

/-- The consumer dispatch when the consumer acts. -/
theorem schedStepB_acts (t : Nat) (snap pend : SimState)
    (h : schedActs snap.consumerSpeed t = true) :
    schedStepB t snap pend = runProcessB snap pend := by
  unfold schedStepB
  rw [if_pos h]

/-- The consumer dispatch when the consumer is idle this tick. -/
theorem schedStepB_idle (t : Nat) (snap pend : SimState)
    (h : schedActs snap.consumerSpeed t = false)
    (hd : snap.processBState ≠ .DEADLOCKED) :
    schedStepB t snap pend = { pend with processBState := .IDLE } := by
  unfold schedStepB
  rw [if_neg (by simp [h]), if_pos hd]

/-- A produce into a Pipe with room appends the chunk to the pending
buffer. -/
theorem runProcessA_pipe_produce (c : Item) (snap pend : SimState)
    (hty : snap.ipcType = .PIPE)
    (hlt : snap.buffer.length < MAX_BUFFER_SIZE) :
    runProcessA c snap pend =
      { pend with
        buffer := pend.buffer ++ [c]
        metrics := { pend.metrics with produced := pend.metrics.produced + 1 }
        processAState := .RUNNING
        logs := addLog .INFO pend.logs } := by
  simp [runProcessA, hty, hlt]

/-- A produce against a full Pipe/Queue buffer blocks the producer. -/
theorem runProcessA_full_blocked (c : Item) (snap pend : SimState)
    (hty : snap.ipcType = .PIPE ∨ snap.ipcType = .QUEUE)
    (hge : ¬snap.buffer.length < MAX_BUFFER_SIZE) :
    runProcessA c snap pend =
      { pend with
        processAState := .BLOCKED
        metrics := { pend.metrics with aWaitTime := pend.metrics.aWaitTime + 1 }
        logs := addLog .WARNING pend.logs } := by
  rcases hty with h | h <;> simp [runProcessA, h, hge]

/-- A consume from a non-empty Pipe removes the pending head. -/
theorem runProcessB_pipe_head (snap pend : SimState)
    (hty : snap.ipcType = .PIPE) (hne : snap.buffer.length ≠ 0) :
    runProcessB snap pend =
      { pend with
        buffer := pend.buffer.drop 1
        metrics := { pend.metrics with consumed := pend.metrics.consumed + 1 }
        processBState := .RUNNING
        logs := addLog .INFO pend.logs } := by
  simp [runProcessB, hty, hne]

/-- In Pipe mode with neither warning condition holding on the snapshot,
`detectIssues` is the identity on the pending state. -/
theorem detectIssues_pipe_quiet (snap pend : SimState)
    (hty : snap.ipcType = .PIPE)
    (h1 : ¬(snap.buffer.length = MAX_BUFFER_SIZE ∧ snap.processAState = .BLOCKED))
    (h2 : ¬(snap.buffer.length = 0 ∧ snap.processBState = .BLOCKED)) :
    detectIssues snap pend = pend := by
  simp [detectIssues, hty, h1, h2]
  intro h hb
  exact absurd ⟨(by simp [h] : snap.buffer.length = 0), hb⟩ h2

/-- The full tick in the C6 scenario on a tick where only the producer
acts and the buffer has room. -/
theorem tick_pipe_quiet (c : Item) (s : SimState)
    (hty : s.ipcType = .PIPE)
    (hpA : s.producerSpeed = 100)
    (hBs : (100 * (s.metrics.cycle + 1)) % s.consumerSpeed ≠ 0)
    (hlt : s.buffer.length < MAX_BUFFER_SIZE)
    (hBd : s.processBState ≠ .DEADLOCKED)
    (hA1 : ¬(s.buffer.length = MAX_BUFFER_SIZE ∧ s.processAState = .BLOCKED))
    (hB1 : ¬(s.buffer.length = 0 ∧ s.processBState = .BLOCKED)) :
    tick c s =
      { s with
        buffer := s.buffer ++ [c]
        processAState := .RUNNING
        processBState := .IDLE
        logs := addLog .INFO s.logs
        metrics := { s.metrics with
          produced := s.metrics.produced + 1
          cycle := s.metrics.cycle + 1 } } := by
  have hAact : schedActs s.producerSpeed (s.metrics.cycle + 1) = true := by
    rw [hpA]
    unfold schedActs
    simp [Nat.mul_mod_right]
  have hBact : schedActs s.consumerSpeed (s.metrics.cycle + 1) = false := by
    unfold schedActs
    simp [hBs]
  have htick : tick c s =
      detectIssues s
        (schedStepB (s.metrics.cycle + 1) s
          (schedStepA c (s.metrics.cycle + 1) s
            { s with metrics := { s.metrics with cycle := s.metrics.cycle + 1 } })) :=
    rfl
  rw [htick, schedStepA_acts _ _ _ _ hAact,
    runProcessA_pipe_produce _ _ _ hty hlt,
    schedStepB_idle _ _ _ hBact hBd,
    detectIssues_pipe_quiet _ _ hty hA1 hB1]
  try rfl

/-- The full tick in the C6 scenario on a tick where both actors act and
the buffer is non-empty with room. -/
theorem tick_pipe_consume (c : Item) (s : SimState)
    (hty : s.ipcType = .PIPE)
    (hpA : s.producerSpeed = 100)
    (hBs : (100 * (s.metrics.cycle + 1)) % s.consumerSpeed = 0)
    (hlt : s.buffer.length < MAX_BUFFER_SIZE)
    (hne : s.buffer.length ≠ 0)
    (hA1 : ¬(s.buffer.length = MAX_BUFFER_SIZE ∧ s.processAState = .BLOCKED))
    (hB1 : ¬(s.buffer.length = 0 ∧ s.processBState = .BLOCKED)) :
    tick c s =
      { s with
        buffer := (s.buffer ++ [c]).drop 1
        processAState := .RUNNING
        processBState := .RUNNING
        logs := addLog .INFO (addLog .INFO s.logs)
        metrics := { s.metrics with
          produced := s.metrics.produced + 1
          consumed := s.metrics.consumed + 1
          cycle := s.metrics.cycle + 1 } } := by
  have hAact : schedActs s.producerSpeed (s.metrics.cycle + 1) = true := by
    rw [hpA]
    unfold schedActs
    simp [Nat.mul_mod_right]
  have hBact : schedActs s.consumerSpeed (s.metrics.cycle + 1) = true := by
    unfold schedActs
    simp [hBs]
  have htick : tick c s =
      detectIssues s
        (schedStepB (s.metrics.cycle + 1) s
          (schedStepA c (s.metrics.cycle + 1) s
            { s with metrics := { s.metrics with cycle := s.metrics.cycle + 1 } })) :=
    rfl
  rw [htick, schedStepA_acts _ _ _ _ hAact,
    runProcessA_pipe_produce _ _ _ hty hlt,
    schedStepB_acts _ _ _ hBact,
    runProcessB_pipe_head _ _ hty hne,
    detectIssues_pipe_quiet _ _ hty hA1 hB1]
  try rfl

/-- The full tick in the C6 scenario on a tick where the producer hits the
full buffer and blocks (the consumer idle). -/
theorem tick_pipe_blocked (c : Item) (s : SimState)
    (hty : s.ipcType = .PIPE)
    (hpA : s.producerSpeed = 100)
    (hBs : (100 * (s.metrics.cycle + 1)) % s.consumerSpeed ≠ 0)
    (hge : ¬s.buffer.length < MAX_BUFFER_SIZE)
    (hBd : s.processBState ≠ .DEADLOCKED)
    (hA1 : ¬(s.buffer.length = MAX_BUFFER_SIZE ∧ s.processAState = .BLOCKED))
    (hB1 : ¬(s.buffer.length = 0 ∧ s.processBState = .BLOCKED)) :
    tick c s =
      { s with
        processAState := .BLOCKED
        processBState := .IDLE
        logs := addLog .WARNING s.logs
        metrics := { s.metrics with
          aWaitTime := s.metrics.aWaitTime + 1
          cycle := s.metrics.cycle + 1 } } := by
  have hAact : schedActs s.producerSpeed (s.metrics.cycle + 1) = true := by
    rw [hpA]
    unfold schedActs
    simp [Nat.mul_mod_right]
  have hBact : schedActs s.consumerSpeed (s.metrics.cycle + 1) = false := by
    unfold schedActs
    simp [hBs]
  have htick : tick c s =
      detectIssues s
        (schedStepB (s.metrics.cycle + 1) s
          (schedStepA c (s.metrics.cycle + 1) s
            { s with metrics := { s.metrics with cycle := s.metrics.cycle + 1 } })) :=
    rfl
  rw [htick, schedStepA_acts _ _ _ _ hAact,
    runProcessA_full_blocked _ _ _ (Or.inl hty) hge,
    schedStepB_idle _ _ _ hBact hBd,
    detectIssues_pipe_quiet _ _ hty hA1 hB1]
  try rfl

/-! ## Claim theorems -/

/-- C1: the claim says that in SharedMemory mode consumer B waits on
contention and otherwise takes the lock, reads `value` and bumps
`consumedCount`.  The code instead hits the `buffer.length === 0` guard
(which precedes the mechanism dispatch, and the buffer is always empty in
SharedMemory mode), so B is set to BLOCKED with a buffer-empty warning,
never touches the lock, and `consumedCount` stays 0: the shared-memory
consume branch of `runProcessB` is unreachable.  This theorem evaluates
the code at the failing input (the initial SharedMemory state, lock
free). -/
theorem C1_shared_memory_consume_actual :
    sharedMemInitial.lockHeldBy = none
    ∧ sharedMemInitial.buffer = []
    ∧ (runProcessB sharedMemInitial sharedMemInitial).processBState = .BLOCKED
    ∧ (runProcessB sharedMemInitial sharedMemInitial).metrics.consumed = 0
    ∧ (runProcessB sharedMemInitial sharedMemInitial).metrics.bWaitTime = 1
    ∧ (runProcessB sharedMemInitial sharedMemInitial).lockHeldBy = none
    ∧ (runProcessB sharedMemInitial sharedMemInitial).sharedMemory
        = INITIAL_SHARED_MEMORY
    ∧ (runProcessB sharedMemInitial sharedMemInitial).logs = [.WARNING] := by
  decide

/-- C2: driving A then B (and the diagnostics) every tick from the initial
ResourcePair state, `deadlocked` is still false after tick 2 and becomes
true at tick 3 — a fixed, reproducible count — and on every tick from 4 on
both phases are DEADLOCKED, the driver is halted, and the flag persists;
reset restores the scenario to its (reset) initial state. -/
theorem C2_deadlock_determinism :
    (dlRun 2).resources.deadlock = false
    ∧ (dlRun 3).resources.deadlock = true
    ∧ (∀ n, 4 ≤ n →
        (dlRun n).processAState = .DEADLOCKED
        ∧ (dlRun n).processBState = .DEADLOCKED
        ∧ (dlRun n).isRunning = false
        ∧ (dlRun n).resources.deadlock = true)
    ∧ resetSimulation (dlRun 5) = resetSimulation dlInit := by
  have base : ∀ m : Nat,
      (dlRun (3 + m)).ipcType = .RESOURCES_DEADLOCK
      ∧ (dlRun (3 + m)).resources.deadlock = true := by
    intro m
    induction m with
    | zero => exact ⟨by decide, by decide⟩
    | succ m ih =>
      have hstep : dlRun (3 + (m + 1)) = tick ⟨1, 1⟩ (dlRun (3 + m)) := rfl
      rw [hstep]
      obtain ⟨h1, h2, _, _, _⟩ := tick_deadlocked ⟨1, 1⟩ _ ih.1 ih.2
      exact ⟨h1, h2⟩
  refine ⟨by decide, by decide, ?_, by decide⟩
  intro n hn
  obtain ⟨m, rfl⟩ : ∃ m, n = 3 + (m + 1) := ⟨n - 4, by omega⟩
  have hstep : dlRun (3 + (m + 1)) = tick ⟨1, 1⟩ (dlRun (3 + m)) := rfl
  obtain ⟨hb1, hb2⟩ := base m
  obtain ⟨_, hdl, hA, hB, hR⟩ := tick_deadlocked ⟨1, 1⟩ _ hb1 hb2
  rw [hstep]
  exact ⟨hA, hB, hR, hdl⟩

/-- C3: for every non-empty PriorityQueue buffer, the consume scan picks an
in-range index of minimal priority, and the first such index (every earlier
index has strictly larger priority, by the strict `<` against the running
best), and `runProcessB` removes exactly that element; in particular, from
priorities `[3,1,2,1]` the first two consumes remove the two priority-1
items in insertion order. -/
theorem C3_priority_queue_selection (l : List Item) (hl : l ≠ []) (s : SimState)
    (hty : s.ipcType = .QUEUE) (hbuf : s.buffer = l) :
    ((bestPrioIdx l < l.length
      ∧ (∀ j, j < l.length →
          (l.getD (bestPrioIdx l) ⟨0, 0⟩).priority ≤ (l.getD j ⟨0, 0⟩).priority)
      ∧ (∀ j, j < bestPrioIdx l →
          (l.getD (bestPrioIdx l) ⟨0, 0⟩).priority < (l.getD j ⟨0, 0⟩).priority))
      ∧ (runProcessB s s).buffer
          = l.take (bestPrioIdx l) ++ l.drop (bestPrioIdx l + 1))
    ∧ (bestPrioIdx prioScenario = 1
      ∧ prioScenario.getD (bestPrioIdx prioScenario) ⟨0, 0⟩ = ⟨20, 1⟩
      ∧ (runProcessB queueScenarioState queueScenarioState).buffer
          = [⟨10, 3⟩, ⟨30, 2⟩, ⟨40, 1⟩]
      ∧ bestPrioIdx [⟨10, 3⟩, ⟨30, 2⟩, ⟨40, 1⟩] = 2
      ∧ ([⟨10, 3⟩, ⟨30, 2⟩, ⟨40, 1⟩] : List Item).getD 2 ⟨0, 0⟩ = ⟨40, 1⟩
      ∧ (runProcessB (runProcessB queueScenarioState queueScenarioState)
            (runProcessB queueScenarioState queueScenarioState)).buffer
          = [⟨10, 3⟩, ⟨30, 2⟩]) := by
  constructor
  · refine ⟨bestPrioIdx_spec l hl, ?_⟩
    have hRD : ¬s.ipcType = .RESOURCES_DEADLOCK := by rw [hty]; decide
    have hP : ¬s.ipcType = .PIPE := by rw [hty]; decide
    have h0 : ¬s.buffer.length = 0 := by
      rw [hbuf]
      simpa [List.length_eq_zero] using hl
    simp only [runProcessB, if_neg hRD, if_neg h0, if_neg hP, if_pos hty]
    show removeAtIndex s.buffer (bestPrioIdx s.buffer)
        = l.take (bestPrioIdx l) ++ l.drop (bestPrioIdx l + 1)
    rw [hbuf, removeAtIndex_eq]
  · exact ⟨by decide, by decide, by decide, by decide, by decide, by decide⟩

/-- C3 witness at the `[3,1,2,1]` scenario buffer. -/
theorem C3_priority_queue_selection_witness :
    bestPrioIdx prioScenario < prioScenario.length :=
  ((C3_priority_queue_selection prioScenario (by decide) queueScenarioState
    rfl rfl).1).1.1

/-- C4: starting from the empty buffer in Pipe or PriorityQueue mode, every
operation sequence keeps `0 ≤ length ≤ 10`; a produce against a full buffer
leaves the buffer unchanged and a consume against an empty buffer leaves
the buffer unchanged. -/
theorem C4_bounded_buffer (ops : List BufferOp) (s : SimState)
    (hty : s.ipcType = .PIPE ∨ s.ipcType = .QUEUE) (hbuf : s.buffer = []) :
    (0 ≤ (applyOps ops s).buffer.length ∧ (applyOps ops s).buffer.length ≤ 10)
    ∧ (∀ (c : Item) (s₂ : SimState), s₂.ipcType = .PIPE ∨ s₂.ipcType = .QUEUE →
        s₂.buffer.length = 10 → (runProcessA c s₂ s₂).buffer = s₂.buffer)
    ∧ (∀ s₂ : SimState, s₂.ipcType = .PIPE ∨ s₂.ipcType = .QUEUE →
        s₂.buffer.length = 0 → (runProcessB s₂ s₂).buffer = s₂.buffer) := by
  refine ⟨⟨Nat.zero_le _, applyOps_inv ops s hty (by rw [hbuf]; simp)⟩, ?_, ?_⟩
  · intro c s₂ hty₂ hlen₂
    rcases hty₂ with h | h <;>
      simp [runProcessA, h, hlen₂, MAX_BUFFER_SIZE]
  · intro s₂ hty₂ hlen₂
    rcases hty₂ with h | h <;>
      simp [runProcessB, h, hlen₂]

/-- C4 witness: one produce then one consume from the initial Pipe state. -/
theorem C4_bounded_buffer_witness :
    (applyOps [BufferOp.produce ⟨1, 1⟩, BufferOp.consume] initialState).buffer.length
      ≤ 10 :=
  ((C4_bounded_buffer [BufferOp.produce ⟨1, 1⟩, BufferOp.consume] initialState
    (Or.inl rfl) rfl).1).2

/-- C5 counterexample: with periods of 250 ms the claim's
`t mod round(periodMs / 100) == 0` rule (round(2.5) = 3) says the actor is
idle at tick 5, but the scheduler's actual test `t % (speed / 100) === 0`
(5 % 2.5 = 0, and 2.5 is exactly representable in binary64, so the
faithful test `schedActsJS` agrees) dispatches it: from a state at cycle
4 the tick produces a chunk. -/
theorem C5_round_counterexample :
    specActsRound 250 5 = false
    ∧ schedActsJS 250 5 = true
    ∧ schedActsQ 250 5 = true
    ∧ schedActs 250 5 = true
    ∧ (tick ⟨1, 1⟩ c5State).metrics.produced = 1 := by
  have h3 : jsRound (((250 : ℕ) : ℚ) / 100) = 3 := by
    unfold jsRound
    rw [show ((((250 : ℕ) : ℚ)) / 100 + 1 / 2) = ((3 : ℤ) : ℚ) by norm_num]
    exact Int.floor_intCast 3
  have hspec : specActsRound 250 5 = false := by
    unfold specActsRound
    rw [h3]
    decide
  have hq : schedActsQ 250 5 = true :=
    (schedActsQ_iff 250 5 (by norm_num)).mpr (by norm_num)
  exact ⟨hspec, by decide, hq, by decide, by decide⟩

/-- C5 (amended): the scheduler evaluates `t % (periodMs / 100) === 0` in
binary64 — `periodMs / 100` is rounded to the nearest double (ties to
even, `flDiv100` / `flVal`), the remainder on the result is exact — so an
actor acts on tick `t` iff that double divides `t`.  When the period is a
multiple of 25 and at most `2 ^ 53` the double is exactly
`periodMs / 100` and the rule becomes: `periodMs` divides `100 * t`; this
covers every period the scenarios of this file use and justifies the
divisibility form `schedActs` of the tick embedding there.  At other
periods the two rules differ: at 110 ms the double is
`4953959590107546 / 2 ^ 52`, slightly above `11 / 10`, and at tick 11 the
scheduler idles although 110 divides 1100.  On every tick where an actor
does not act its phase is set to IDLE unless it is DEADLOCKED, in which
case it is left unchanged. -/
theorem C5_scheduler_dispatch :
    (∀ speedMs t : Nat, 100 ≤ speedMs →
      (schedActsJS speedMs t = true ↔ jsMod (t : ℚ) (flVal speedMs) = 0))
    ∧ (∀ speedMs : Nat, 25 ∣ speedMs → 100 ≤ speedMs → speedMs ≤ 2 ^ 53 →
        flVal speedMs = (speedMs : ℚ) / 100)
    ∧ (∀ speedMs t : Nat, 25 ∣ speedMs → 100 ≤ speedMs → speedMs ≤ 2 ^ 53 →
        schedActsJS speedMs t = schedActs speedMs t)
    ∧ (∀ speedMs t : Nat,
        schedActs speedMs t = true ↔ (100 * t) % speedMs = 0)
    ∧ flDiv100 110 = (4953959590107546, 52)
    ∧ schedActsJS 110 11 = false
    ∧ schedActs 110 11 = true
    ∧ (∀ (chunk : Item) (t : Nat) (s p : SimState),
        (schedActs s.producerSpeed t = true →
          schedStepA chunk t s p = runProcessA chunk s p)
        ∧ (schedActs s.consumerSpeed t = true →
          schedStepB t s p = runProcessB s p)
        ∧ (schedActs s.producerSpeed t = false →
            schedStepA chunk t s p
              = (if s.processAState = .DEADLOCKED then p
                else { p with processAState := .IDLE }))
        ∧ (schedActs s.consumerSpeed t = false →
            schedStepB t s p
              = (if s.processBState = .DEADLOCKED then p
                else { p with processBState := .IDLE }))) := by
  refine ⟨schedActsJS_iff, flVal_exact, schedActsJS_eq_schedActs, ?_,
    by decide, by decide, by decide, ?_⟩
  · intro speedMs t
    unfold schedActs
    simp
  · intro chunk t s p
    refine ⟨?_, ?_, ?_, ?_⟩
    · intro h
      unfold schedStepA
      rw [if_pos h]
    · intro h
      unfold schedStepB
      rw [if_pos h]
    · intro h
      have h' : ¬schedActs s.producerSpeed t = true := by rw [h]; simp
      unfold schedStepA
      rw [if_neg h']
      by_cases hd : s.processAState = Phase.DEADLOCKED
      · rw [if_neg (show ¬s.processAState ≠ Phase.DEADLOCKED by simp [hd]),
          if_pos hd]
      · rw [if_pos hd, if_neg hd]
    · intro h
      have h' : ¬schedActs s.consumerSpeed t = true := by rw [h]; simp
      unfold schedStepB
      rw [if_neg h']
      by_cases hd : s.processBState = Phase.DEADLOCKED
      · rw [if_neg (show ¬s.processBState ≠ Phase.DEADLOCKED by simp [hd]),
          if_pos hd]
      · rw [if_pos hd, if_neg hd]

/-- One quiet scenario tick (producer acts, consumer idle, room in the
buffer) advances the C6 invariant. -/
theorem c6Inv_step_quiet (c : Item) (s : SimState) (n len : Nat) (a b : Phase)
    (h : c6Inv n len a b s) (hlen : len < 10)
    (hmod : (100 * (n + 1)) % 1000 ≠ 0)
    (hb : b ≠ .DEADLOCKED) (hb2 : ¬(len = 0 ∧ b = .BLOCKED)) :
    c6Inv (n + 1) (len + 1) .RUNNING .IDLE (tick c s) := by
  obtain ⟨h1, h2, h3, h4, h5, h6, h7⟩ := h
  have ht := tick_pipe_quiet c s h1 h2
    (by rw [h3, h4]; exact hmod)
    (by rw [h5]; simpa [MAX_BUFFER_SIZE] using hlen)
    (by rw [h7]; exact hb)
    (by rw [h5, h6]; intro hc; simp [MAX_BUFFER_SIZE] at hc; omega)
    (by rw [h5, h7]; exact hb2)
  rw [ht]
  exact ⟨h1, h2, h3, by simp [h4], by simp [h5], rfl, rfl⟩

/-- A consuming scenario tick (both actors act, buffer non-empty with
room) advances the C6 invariant, leaving the length unchanged. -/
theorem c6Inv_step_consume (c : Item) (s : SimState) (n len : Nat) (a b : Phase)
    (h : c6Inv n len a b s) (hlen : len < 10) (hne : len ≠ 0)
    (hmod : (100 * (n + 1)) % 1000 = 0) :
    c6Inv (n + 1) len .RUNNING .RUNNING (tick c s) := by
  obtain ⟨h1, h2, h3, h4, h5, h6, h7⟩ := h
  have ht := tick_pipe_consume c s h1 h2
    (by rw [h3, h4]; exact hmod)
    (by rw [h5]; simpa [MAX_BUFFER_SIZE] using hlen)
    (by rw [h5]; exact hne)
    (by rw [h5, h6]; intro hc; simp [MAX_BUFFER_SIZE] at hc; omega)
    (by rw [h5, h7]; intro hc; exact hne hc.1)
  rw [ht]
  exact ⟨h1, h2, h3, by simp [h4], by simp [h5], rfl, rfl⟩

/-- A blocked scenario tick (producer meets the full buffer, consumer
idle) advances the C6 invariant to a BLOCKED producer. -/
theorem c6Inv_step_blocked (c : Item) (s : SimState) (n len : Nat) (a b : Phase)
    (h : c6Inv n len a b s) (hge : ¬len < 10)
    (hmod : (100 * (n + 1)) % 1000 ≠ 0)
    (ha : a ≠ .BLOCKED) (hb : b ≠ .DEADLOCKED)
    (hb2 : ¬(len = 0 ∧ b = .BLOCKED)) :
    c6Inv (n + 1) len .BLOCKED .IDLE (tick c s) := by
  obtain ⟨h1, h2, h3, h4, h5, h6, h7⟩ := h
  have ht := tick_pipe_blocked c s h1 h2
    (by rw [h3, h4]; exact hmod)
    (by rw [h5]; simpa [MAX_BUFFER_SIZE] using hge)
    (by rw [h7]; exact hb)
    (by rw [h5, h6]; intro hc; exact ha hc.2)
    (by rw [h5, h7]; exact hb2)
  rw [ht]
  exact ⟨h1, h2, h3, by simp [h4], by simp [h5], rfl, rfl⟩

/-- The C6 scenario run, tick by tick for an arbitrary chunk oracle: the
tracked facts after ticks 10, 11 and 12. -/
theorem pipeScenario_inv (oracle : Nat → Item) :
    c6Inv 10 9 .RUNNING .RUNNING (runTicks oracle 10 pipeScenarioInit)
    ∧ c6Inv 11 10 .RUNNING .IDLE (runTicks oracle 11 pipeScenarioInit)
    ∧ c6Inv 12 10 .BLOCKED .IDLE (runTicks oracle 12 pipeScenarioInit) := by
  have i0 : c6Inv 0 0 .IDLE .IDLE (runTicks oracle 0 pipeScenarioInit) :=
    ⟨rfl, rfl, rfl, rfl, rfl, rfl, rfl⟩
  have i1 : c6Inv 1 1 .RUNNING .IDLE (runTicks oracle 1 pipeScenarioInit) := by
    rw [runTicks_succ]
    exact c6Inv_step_quiet _ _ _ _ _ _ i0 (by norm_num) (by norm_num)
      (by decide) (by decide)
  have i2 : c6Inv 2 2 .RUNNING .IDLE (runTicks oracle 2 pipeScenarioInit) := by
    rw [runTicks_succ]
    exact c6Inv_step_quiet _ _ _ _ _ _ i1 (by norm_num) (by norm_num)
      (by decide) (by decide)
  have i3 : c6Inv 3 3 .RUNNING .IDLE (runTicks oracle 3 pipeScenarioInit) := by
    rw [runTicks_succ]
    exact c6Inv_step_quiet _ _ _ _ _ _ i2 (by norm_num) (by norm_num)
      (by decide) (by decide)
  have i4 : c6Inv 4 4 .RUNNING .IDLE (runTicks oracle 4 pipeScenarioInit) := by
    rw [runTicks_succ]
    exact c6Inv_step_quiet _ _ _ _ _ _ i3 (by norm_num) (by norm_num)
      (by decide) (by decide)
  have i5 : c6Inv 5 5 .RUNNING .IDLE (runTicks oracle 5 pipeScenarioInit) := by
    rw [runTicks_succ]
    exact c6Inv_step_quiet _ _ _ _ _ _ i4 (by norm_num) (by norm_num)
      (by decide) (by decide)
  have i6 : c6Inv 6 6 .RUNNING .IDLE (runTicks oracle 6 pipeScenarioInit) := by
    rw [runTicks_succ]
    exact c6Inv_step_quiet _ _ _ _ _ _ i5 (by norm_num) (by norm_num)
      (by decide) (by decide)
  have i7 : c6Inv 7 7 .RUNNING .IDLE (runTicks oracle 7 pipeScenarioInit) := by
    rw [runTicks_succ]
    exact c6Inv_step_quiet _ _ _ _ _ _ i6 (by norm_num) (by norm_num)
      (by decide) (by decide)
  have i8 : c6Inv 8 8 .RUNNING .IDLE (runTicks oracle 8 pipeScenarioInit) := by
    rw [runTicks_succ]
    exact c6Inv_step_quiet _ _ _ _ _ _ i7 (by norm_num) (by norm_num)
      (by decide) (by decide)
  have i9 : c6Inv 9 9 .RUNNING .IDLE (runTicks oracle 9 pipeScenarioInit) := by
    rw [runTicks_succ]
    exact c6Inv_step_quiet _ _ _ _ _ _ i8 (by norm_num) (by norm_num)
      (by decide) (by decide)
  have i10 : c6Inv 10 9 .RUNNING .RUNNING (runTicks oracle 10 pipeScenarioInit) := by
    rw [runTicks_succ]
    exact c6Inv_step_consume _ _ _ _ _ _ i9 (by norm_num) (by norm_num)
      (by norm_num)
  have i11 : c6Inv 11 10 .RUNNING .IDLE (runTicks oracle 11 pipeScenarioInit) := by
    rw [runTicks_succ]
    exact c6Inv_step_quiet _ _ _ _ _ _ i10 (by norm_num) (by norm_num)
      (by decide) (by decide)
  have i12 : c6Inv 12 10 .BLOCKED .IDLE (runTicks oracle 12 pipeScenarioInit) := by
    rw [runTicks_succ]
    exact c6Inv_step_blocked _ _ _ _ _ _ i11 (by norm_num) (by norm_num)
      (by decide) (by decide) (by decide)
  exact ⟨i10, i11, i12⟩

/-- C6 counterexample: in the capacity-10 Pipe scenario with producer
period 100 ms and consumer period 1000 ms (a run with constant produced
chunks), the buffer has length 9 after tick 10 and first reaches length
10 at tick 11, while the producer's phase at tick 11 is still RUNNING,
not BLOCKED, contradicting "by tick 11 the producer's phase transitions
to BLOCKED once the length reaches 10". -/
theorem C6_pipe_scenario_counterexample :
    (runTicks (fun _ => ⟨1, 1⟩) 10 pipeScenarioInit).buffer.length = 9
    ∧ (runTicks (fun _ => ⟨1, 1⟩) 11 pipeScenarioInit).buffer.length = 10
    ∧ (runTicks (fun _ => ⟨1, 1⟩) 11 pipeScenarioInit).processAState
        = .RUNNING := by
  obtain ⟨i10, i11, i12⟩ := pipeScenario_inv (fun _ => ⟨1, 1⟩)
  exact ⟨i10.2.2.2.2.1, i11.2.2.2.2.1, i11.2.2.2.2.2.1⟩

/-- C6 (amended): in that scenario, whatever chunks are produced, the
buffer has length 9 after 10 ticks and first reaches length 10 at tick 11
with the producer still RUNNING; the producer transitions to BLOCKED at
tick 12, its first attempt with the buffer already full. -/
theorem C6_pipe_scenario (oracle : Nat → Item) :
    (runTicks oracle 10 pipeScenarioInit).buffer.length = 9
    ∧ (runTicks oracle 11 pipeScenarioInit).buffer.length = 10
    ∧ (runTicks oracle 11 pipeScenarioInit).processAState = .RUNNING
    ∧ (runTicks oracle 12 pipeScenarioInit).processAState = .BLOCKED := by
  obtain ⟨i10, i11, i12⟩ := pipeScenario_inv oracle
  exact ⟨i10.2.2.2.2.1, i11.2.2.2.2.1, i11.2.2.2.2.2.1, i12.2.2.2.2.2.1⟩

/-- C7: producing `i1..iN` (N ≤ capacity) into an empty Pipe appends them
at the tail in order, and N consume attempts then read `i1..iN` in the same
order, each removing the head, emptying the buffer. -/
theorem C7_fifo_order (l : List Item) (hlen : l.length ≤ 10) (s : SimState)
    (hty : s.ipcType = .PIPE) (hbuf : s.buffer = []) :
    (produceAll l s).buffer = l
    ∧ (consumeSteps l.length (produceAll l s)).1 = l
    ∧ (consumeSteps l.length (produceAll l s)).2.buffer = [] := by
  have hp := produceAll_pipe l s (Or.inl hty) (by rw [hbuf]; simpa using hlen)
  have hbuf' : (produceAll l s).buffer = l := by
    rw [hp.1, hbuf]
    simp
  have hc := consumeSteps_pipe l (produceAll l s) (by rw [hp.2]; exact hty) hbuf'
  exact ⟨hbuf', hc.1, hc.2⟩

/-- C7 witness at a four-item list. -/
theorem C7_fifo_order_witness :
    (produceAll prioScenario initialState).buffer = prioScenario :=
  (C7_fifo_order prioScenario (by decide) initialState rfl rfl).1

/-- C8: reset halts the driver and restores buffer, shared memory, lock,
resources, both phases, metrics counters and the event stream to their
documented initial values, from any state; and iterating reset any
positive number of times equals one reset. -/
theorem C8_reset_idempotent (s : SimState) (n : Nat) (hn : 1 ≤ n) :
    (resetSimulation s).isRunning = false
    ∧ (resetSimulation s).buffer = []
    ∧ (resetSimulation s).sharedMemory = INITIAL_SHARED_MEMORY
    ∧ (resetSimulation s).lockHeldBy = INITIAL_LOCK_STATE
    ∧ (resetSimulation s).resources = INITIAL_RESOURCE_STATE
    ∧ (resetSimulation s).processAState = INITIAL_PROCESS_STATE
    ∧ (resetSimulation s).processBState = INITIAL_PROCESS_STATE
    ∧ (resetSimulation s).logs = []
    ∧ (resetSimulation s).metrics = initialMetrics
    ∧ resetSimulation^[n] s = resetSimulation s := by
  refine ⟨rfl, rfl, rfl, rfl, rfl, rfl, rfl, rfl, rfl, ?_⟩
  have key : ∀ m : Nat, resetSimulation^[m + 1] s = resetSimulation s := by
    intro m
    induction m with
    | zero => rfl
    | succ m ih =>
      rw [Function.iterate_succ_apply', ih]
      rfl
  obtain ⟨m, rfl⟩ : ∃ m, n = m + 1 := ⟨n - 1, by omega⟩
  exact key m

/-- C8 witness: a triple reset from the initial state. -/
theorem C8_reset_idempotent_witness :
    resetSimulation^[3] initialState = resetSimulation initialState :=
  (C8_reset_idempotent initialState 3 (by norm_num)).2.2.2.2.2.2.2.2.2

/-- C9: in SharedMemory mode the diagnostics step, exactly when the cycle
counter it reads satisfies `cycle % 100 == 0 && cycle > 0`, doubles
`value` and increments `accessCount` without touching the lock, and emits
an ERROR event at the head of the stream; it never changes `isRunning`
(only the deadlock branch halts the driver), and on all other cycles it
leaves the shared memory alone and emits no ERROR. -/
theorem C9_race_injection (snap pend : SimState)
    (hty : snap.ipcType = .SHARED_MEMORY) :
    ((snap.metrics.cycle % 100 = 0 ∧ 0 < snap.metrics.cycle) →
      (detectIssues snap pend).sharedMemory.value = pend.sharedMemory.value * 2
      ∧ (detectIssues snap pend).sharedMemory.accessed
          = pend.sharedMemory.accessed + 1
      ∧ (detectIssues snap pend).lockHeldBy = pend.lockHeldBy
      ∧ (detectIssues snap pend).isRunning = pend.isRunning
      ∧ (detectIssues snap pend).logs.head? = some .ERROR)
    ∧ (¬(snap.metrics.cycle % 100 = 0 ∧ 0 < snap.metrics.cycle) →
      (detectIssues snap pend).sharedMemory = pend.sharedMemory
      ∧ (detectIssues snap pend).isRunning = pend.isRunning
      ∧ (detectIssues snap pend).logs.count .ERROR ≤ pend.logs.count .ERROR) := by
  have hRD : ¬snap.ipcType = .RESOURCES_DEADLOCK := by rw [hty]; decide
  constructor
  · intro hfire
    have hcond : snap.ipcType = .SHARED_MEMORY ∧ snap.metrics.cycle % 100 = 0
        ∧ 0 < snap.metrics.cycle := ⟨hty, hfire.1, hfire.2⟩
    simp only [detectIssues, if_neg hRD]
    split_ifs with h1 h2 h3 h4 <;>
      first
        | exact absurd hcond (by assumption)
        | refine ⟨by simp, by simp, by simp, by simp, by simp [addLog_head]⟩
  · intro hfire
    have hcond : ¬(snap.ipcType = .SHARED_MEMORY ∧ snap.metrics.cycle % 100 = 0
        ∧ 0 < snap.metrics.cycle) := by
      intro hc
      exact hfire ⟨hc.2.1, hc.2.2⟩
    simp only [detectIssues, if_neg hRD]
    split_ifs with h1 h2 h3 h4 <;>
      first
        | exact absurd h4 hcond
        | (refine ⟨by simp, by simp, ?_⟩
           repeat' refine le_trans (count_addLog_le .WARNING .ERROR (by decide) _) ?_
           exact le_refl _)

/-- C9 witness at cycle 100 with the initial shared memory. -/
theorem C9_race_injection_witness :
    (detectIssues c9SnapState sharedMemInitial).sharedMemory.value
      = sharedMemInitial.sharedMemory.value * 2 :=
  ((C9_race_injection c9SnapState sharedMemInitial rfl).1 (by decide)).1

/-- C10: a produce attempt against a Pipe/Queue buffer at capacity changes
nothing but the producer phase (BLOCKED), the producer wait counter (+1)
and the event stream (one warning prepended): the whole resulting state is
the pending state with exactly those three updates, so the buffer and
every metric counter other than `aWaitTime` are untouched. -/
theorem C10_failed_produce_frame (chunk : Item) (s p : SimState)
    (hty : s.ipcType = .PIPE ∨ s.ipcType = .QUEUE)
    (hlen : s.buffer.length = 10) :
    runProcessA chunk s p =
      { p with
        processAState := .BLOCKED
        metrics := { p.metrics with aWaitTime := p.metrics.aWaitTime + 1 }
        logs := addLog .WARNING p.logs } := by
  rcases hty with h | h <;>
    simp [runProcessA, h, hlen, MAX_BUFFER_SIZE]

/-- C10 witness at a full Pipe buffer. -/
theorem C10_failed_produce_frame_witness :
    runProcessA ⟨2, 2⟩ fullPipeState fullPipeState =
      { fullPipeState with
        processAState := .BLOCKED
        metrics :=
          { fullPipeState.metrics with
            aWaitTime := fullPipeState.metrics.aWaitTime + 1 }
        logs := addLog .WARNING fullPipeState.logs } :=
  C10_failed_produce_frame ⟨2, 2⟩ fullPipeState fullPipeState (Or.inl rfl)
    (by decide)

end IPCDebugger

